import Mathlib

/-!
Shallow embedding of the `classfile` crate (src/lib.rs, src/macros.rs): a
read-only decoder for the JVM ClassFile header and constant pool.

A byte stream is modelled as a `List Nat` of byte values; the implicit read
cursor of `std::io::Read` is modelled by returning the unconsumed suffix of
the list alongside each decoded value.  Fallible operations return
`Except Error`, mirroring `Result<_, Error>`.  Machine integers are `Nat`
(unsigned) or `Int` (two's-complement reinterpretation), with wrap-around
written out as `% 2^w` where the Rust release-mode semantics wraps.
IEEE-754 floats are never computed with, only transported, so `Float` and
`Double` payloads are modelled by their big-endian bit patterns as `Nat`.
-/

namespace Classfile

/-- The `Error` enum of src/lib.rs.  `IoError` abstracts the wrapped
`std::io::Error` cause (the decoder only ever produces it for a short read);
`Utf8DecodeError` carries the offending byte payload, standing for the bytes
held inside Rust's `FromUtf8Error`. -/
inductive Error where
  | IoError : Error
  | Utf8DecodeError (bytes : List Nat) : Error
  | InvalidMagic (observed : List Nat) : Error
  | InvalidConstantPoolItemTag (tag : Nat) : Error
  deriving DecidableEq, Repr

/-- `pub static MAGIC: [u8; 4]` from src/lib.rs. -/
def MAGIC : List Nat := [0xCA, 0xFE, 0xBA, 0xBE]

/-- `ClassFileVersion(major, minor)` tuple struct from src/lib.rs; both
fields are u16 values. -/
structure ClassFileVersion where
  major : Nat
  minor : Nat
  deriving DecidableEq, Repr

/-- The `ConstantPoolItemTag` reversible enum from src/lib.rs. -/
inductive ConstantPoolItemTag where
  | Utf8 | Integer | Float | Long | Double | Class | String
  | FieldRef | MethodRef | InterfaceMethodRef | NameAndType
  | MethodHandle | MethodType | InvokeDynamic
  deriving DecidableEq, Repr

/-- The discriminant of each tag, as declared in the `reversible_enum!`
invocation (`Utf8 = 1`, ..., `InvokeDynamic = 18`). -/
def ConstantPoolItemTag.toByte : ConstantPoolItemTag → Nat
  | .Utf8 => 1
  | .Integer => 3
  | .Float => 4
  | .Long => 5
  | .Double => 6
  | .Class => 7
  | .String => 8
  | .FieldRef => 9
  | .MethodRef => 10
  | .InterfaceMethodRef => 11
  | .NameAndType => 12
  | .MethodHandle => 15
  | .MethodType => 16
  | .InvokeDynamic => 18

/-- The `TryFrom<u8>` impl generated by `reversible_enum!` in src/macros.rs:
a match on the fourteen discriminants with a catch-all producing
`Error::InvalidConstantPoolItemTag(value)`. -/
def ConstantPoolItemTag.ofByte (value : Nat) : Except Error ConstantPoolItemTag :=
  if value = 1 then .ok .Utf8
  else if value = 3 then .ok .Integer
  else if value = 4 then .ok .Float
  else if value = 5 then .ok .Long
  else if value = 6 then .ok .Double
  else if value = 7 then .ok .Class
  else if value = 8 then .ok .String
  else if value = 9 then .ok .FieldRef
  else if value = 10 then .ok .MethodRef
  else if value = 11 then .ok .InterfaceMethodRef
  else if value = 12 then .ok .NameAndType
  else if value = 15 then .ok .MethodHandle
  else if value = 16 then .ok .MethodType
  else if value = 18 then .ok .InvokeDynamic
  else .error (.InvalidConstantPoolItemTag value)

/-- The `ConstantPoolItem` enum from src/lib.rs.  `Utf8` keeps the decoded
string as its UTF-8 byte sequence (a Rust `String` is exactly its UTF-8
bytes); `Float`/`Double` keep the IEEE-754 bit pattern obtained by the
big-endian `from_be_bytes` reinterpretation. -/
inductive ConstantPoolItem where
  | Utf8 (bytes : List Nat) : ConstantPoolItem
  | Integer (v : Int) : ConstantPoolItem
  | Float (bits : Nat) : ConstantPoolItem
  | Long (v : Int) : ConstantPoolItem
  | Double (bits : Nat) : ConstantPoolItem
  | Unsupported : ConstantPoolItem
  deriving DecidableEq, Repr

/-- `ConstantPoolItem::is_8byte` from src/lib.rs. -/
def ConstantPoolItem.is_8byte : ConstantPoolItem → Bool
  | .Long _ => true
  | .Double _ => true
  | _ => false

/-- The `ClassFile` struct from src/lib.rs. -/
structure ClassFile where
  version : ClassFileVersion
  constant_pool : List ConstantPoolItem
  deriving DecidableEq, Repr

/-- `Read::read_exact` into an `n`-byte buffer: atomically consume `n` bytes
or fail with an I/O error (unexpected EOF) consuming nothing observable. -/
def readExact (n : Nat) (s : List Nat) : Except Error (List Nat × List Nat) :=
  if n ≤ s.length then .ok (s.take n, s.drop n) else .error .IoError

/-- `ReadExt::read_u8` (via `read_bytes!(self, u8, 1)`). -/
def read_u8 : List Nat → Except Error (Nat × List Nat)
  | [] => .error .IoError
  | b :: rest => .ok (b, rest)

/-- `ReadExt::read_u16` (big-endian, via `read_bytes!(self, u16, 2)`). -/
def read_u16 : List Nat → Except Error (Nat × List Nat)
  | b1 :: b0 :: rest => .ok (256 * b1 + b0, rest)
  | _ => .error .IoError

/-- Reinterpret a 32-bit unsigned value as i32 (two's complement), as
`i32::from_be_bytes` does. -/
def toI32 (n : Nat) : Int :=
  if n < 2 ^ 31 then (n : Int) else (n : Int) - 2 ^ 32

/-- Reinterpret a 64-bit unsigned value as i64 (two's complement), as
`i64::from_be_bytes` does. -/
def toI64 (n : Nat) : Int :=
  if n < 2 ^ 63 then (n : Int) else (n : Int) - 2 ^ 64

/-- `ReadExt::read_i32` (big-endian, via `read_bytes!(self, i32, 4)`). -/
def read_i32 : List Nat → Except Error (Int × List Nat)
  | b3 :: b2 :: b1 :: b0 :: rest =>
      .ok (toI32 (((b3 * 256 + b2) * 256 + b1) * 256 + b0), rest)
  | _ => .error .IoError

/-- `ReadExt::read_i64` (big-endian, via `read_bytes!(self, i64, 8)`). -/
def read_i64 : List Nat → Except Error (Int × List Nat)
  | b7 :: b6 :: b5 :: b4 :: b3 :: b2 :: b1 :: b0 :: rest =>
      .ok (toI64 (((((((b7 * 256 + b6) * 256 + b5) * 256 + b4) * 256 + b3) * 256 + b2) * 256 + b1) * 256 + b0), rest)
  | _ => .error .IoError

/-- `ReadExt::read_f32`: four big-endian bytes reinterpreted as an IEEE-754
single; modelled as the 32-bit pattern. -/
def read_f32 : List Nat → Except Error (Nat × List Nat)
  | b3 :: b2 :: b1 :: b0 :: rest =>
      .ok (((b3 * 256 + b2) * 256 + b1) * 256 + b0, rest)
  | _ => .error .IoError

/-- `ReadExt::read_f64`: eight big-endian bytes reinterpreted as an IEEE-754
double; modelled as the 64-bit pattern. -/
def read_f64 : List Nat → Except Error (Nat × List Nat)
  | b7 :: b6 :: b5 :: b4 :: b3 :: b2 :: b1 :: b0 :: rest =>
      .ok ((((((((b7 * 256 + b6) * 256 + b5) * 256 + b4) * 256 + b3) * 256 + b2) * 256 + b1) * 256 + b0), rest)
  | _ => .error .IoError

/-- Whether `b` is a UTF-8 continuation byte (0x80..=0xBF). -/
def isUtf8Cont (b : Nat) : Bool := 0x80 ≤ b && b ≤ 0xBF

/-- UTF-8 validity of a byte sequence, exactly the check performed by Rust's
`String::from_utf8` (std's `run_utf8_validation`, the RFC 3629 table):
shortest-form encodings only, surrogates (ED A0..BF ..) rejected, code
points capped at U+10FFFF (lead F4 limited to 80..8F). -/
def validUtf8 : List Nat → Bool
  | [] => true
  | b :: rest =>
    if b ≤ 0x7F then validUtf8 rest
    else if 0xC2 ≤ b && b ≤ 0xDF then
      match rest with
      | c1 :: r => isUtf8Cont c1 && validUtf8 r
      | [] => false
    else if b = 0xE0 then
      match rest with
      | c1 :: c2 :: r => (0xA0 ≤ c1 && c1 ≤ 0xBF) && isUtf8Cont c2 && validUtf8 r
      | _ => false
    else if (0xE1 ≤ b && b ≤ 0xEC) || b = 0xEE || b = 0xEF then
      match rest with
      | c1 :: c2 :: r => isUtf8Cont c1 && isUtf8Cont c2 && validUtf8 r
      | _ => false
    else if b = 0xED then
      match rest with
      | c1 :: c2 :: r => (0x80 ≤ c1 && c1 ≤ 0x9F) && isUtf8Cont c2 && validUtf8 r
      | _ => false
    else if b = 0xF0 then
      match rest with
      | c1 :: c2 :: c3 :: r =>
          (0x90 ≤ c1 && c1 ≤ 0xBF) && isUtf8Cont c2 && isUtf8Cont c3 && validUtf8 r
      | _ => false
    else if 0xF1 ≤ b && b ≤ 0xF3 then
      match rest with
      | c1 :: c2 :: c3 :: r =>
          isUtf8Cont c1 && isUtf8Cont c2 && isUtf8Cont c3 && validUtf8 r
      | _ => false
    else if b = 0xF4 then
      match rest with
      | c1 :: c2 :: c3 :: r =>
          (0x80 ≤ c1 && c1 ≤ 0x8F) && isUtf8Cont c2 && isUtf8Cont c3 && validUtf8 r
      | _ => false
    else false

/-- `read_constant_pool_item` from src/lib.rs: read the tag byte, convert it
through `TryFrom`, then read the tag-specific payload.  The `Utf8` branch
models `String::from_utf8` by the `validUtf8` check, keeping the bytes. -/
def read_constant_pool_item (s : List Nat) : Except Error (ConstantPoolItem × List Nat) :=
  match read_u8 s with
  | .error e => .error e
  | .ok (type_tag_byte, s1) =>
    match ConstantPoolItemTag.ofByte type_tag_byte with
    | .error e => .error e
    | .ok type_tag =>
      match type_tag with
      | .Utf8 =>
        match read_u16 s1 with
        | .error e => .error e
        | .ok (strlen, s2) =>
          match readExact strlen s2 with
          | .error e => .error e
          | .ok (utf8_bytes, s3) =>
            if validUtf8 utf8_bytes then .ok (.Utf8 utf8_bytes, s3)
            else .error (.Utf8DecodeError utf8_bytes)
      | .Integer =>
        match read_i32 s1 with
        | .error e => .error e
        | .ok (v, s2) => .ok (.Integer v, s2)
      | .Float =>
        match read_f32 s1 with
        | .error e => .error e
        | .ok (v, s2) => .ok (.Float v, s2)
      | .Long =>
        match read_i64 s1 with
        | .error e => .error e
        | .ok (v, s2) => .ok (.Long v, s2)
      | .Double =>
        match read_f64 s1 with
        | .error e => .error e
        | .ok (v, s2) => .ok (.Double v, s2)
      | .Class =>
        match read_u16 s1 with
        | .error e => .error e
        | .ok (_, s2) => .ok (.Unsupported, s2)
      | .String =>
        match read_u16 s1 with
        | .error e => .error e
        | .ok (_, s2) => .ok (.Unsupported, s2)
      | .FieldRef =>
        match read_u16 s1 with
        | .error e => .error e
        | .ok (_, s2) =>
          match read_u16 s2 with
          | .error e => .error e
          | .ok (_, s3) => .ok (.Unsupported, s3)
      | .MethodRef =>
        match read_u16 s1 with
        | .error e => .error e
        | .ok (_, s2) =>
          match read_u16 s2 with
          | .error e => .error e
          | .ok (_, s3) => .ok (.Unsupported, s3)
      | .InterfaceMethodRef =>
        match read_u16 s1 with
        | .error e => .error e
        | .ok (_, s2) =>
          match read_u16 s2 with
          | .error e => .error e
          | .ok (_, s3) => .ok (.Unsupported, s3)
      | .NameAndType =>
        match read_u16 s1 with
        | .error e => .error e
        | .ok (_, s2) =>
          match read_u16 s2 with
          | .error e => .error e
          | .ok (_, s3) => .ok (.Unsupported, s3)
      | .MethodHandle =>
        match read_u8 s1 with
        | .error e => .error e
        | .ok (_, s2) =>
          match read_u16 s2 with
          | .error e => .error e
          | .ok (_, s3) => .ok (.Unsupported, s3)
      | .MethodType =>
        match read_u16 s1 with
        | .error e => .error e
        | .ok (_, s2) => .ok (.Unsupported, s2)
      | .InvokeDynamic =>
        match read_u16 s1 with
        | .error e => .error e
        | .ok (_, s2) =>
          match read_u16 s2 with
          | .error e => .error e
          | .ok (_, s3) => .ok (.Unsupported, s3)

theorem read_u8_drop {s : List Nat} {v : Nat} {s' : List Nat}
    (h : read_u8 s = .ok (v, s')) : s' = s.drop 1 ∧ 1 ≤ s.length := by
  unfold read_u8 at h
  split at h
  · simp at h
  · simp only [Except.ok.injEq, Prod.mk.injEq] at h
    obtain ⟨-, rfl⟩ := h
    simp

theorem read_u16_drop {s : List Nat} {v : Nat} {s' : List Nat}
    (h : read_u16 s = .ok (v, s')) : s' = s.drop 2 ∧ 2 ≤ s.length := by
  unfold read_u16 at h
  split at h
  · simp only [Except.ok.injEq, Prod.mk.injEq] at h
    obtain ⟨-, rfl⟩ := h
    simp
  · simp at h

theorem readExact_drop {n : Nat} {s taken s' : List Nat}
    (h : readExact n s = .ok (taken, s')) :
    taken = s.take n ∧ s' = s.drop n ∧ n ≤ s.length := by
  unfold readExact at h
  split at h
  · simp only [Except.ok.injEq, Prod.mk.injEq] at h
    obtain ⟨rfl, rfl⟩ := h
    simp_all
  · cases h

theorem read_i32_drop {s : List Nat} {v : Int} {s' : List Nat}
    (h : read_i32 s = .ok (v, s')) : s' = s.drop 4 ∧ 4 ≤ s.length := by
  unfold read_i32 at h
  split at h
  · simp only [Except.ok.injEq, Prod.mk.injEq] at h
    obtain ⟨-, rfl⟩ := h
    simp
  · simp at h

theorem read_i64_drop {s : List Nat} {v : Int} {s' : List Nat}
    (h : read_i64 s = .ok (v, s')) : s' = s.drop 8 ∧ 8 ≤ s.length := by
  unfold read_i64 at h
  split at h
  · simp only [Except.ok.injEq, Prod.mk.injEq] at h
    obtain ⟨-, rfl⟩ := h
    simp
  · simp at h

theorem read_f32_drop {s : List Nat} {v : Nat} {s' : List Nat}
    (h : read_f32 s = .ok (v, s')) : s' = s.drop 4 ∧ 4 ≤ s.length := by
  unfold read_f32 at h
  split at h
  · simp only [Except.ok.injEq, Prod.mk.injEq] at h
    obtain ⟨-, rfl⟩ := h
    simp
  · simp at h

theorem read_f64_drop {s : List Nat} {v : Nat} {s' : List Nat}
    (h : read_f64 s = .ok (v, s')) : s' = s.drop 8 ∧ 8 ≤ s.length := by
  unfold read_f64 at h
  split at h
  · simp only [Except.ok.injEq, Prod.mk.injEq] at h
    obtain ⟨-, rfl⟩ := h
    simp
  · simp at h

/-- Round trip discriminant → tag for each of the fourteen variants. -/
theorem ofByte_toByte (t : ConstantPoolItemTag) :
    ConstantPoolItemTag.ofByte t.toByte = .ok t := by
  cases t <;> rfl

/-- The conversion succeeds only on the fourteen declared discriminants:
a successful conversion pins the input byte to the tag's discriminant. -/
theorem ofByte_ok_toByte {b : Nat} {t : ConstantPoolItemTag}
    (h : ConstantPoolItemTag.ofByte b = .ok t) : b = t.toByte := by
  unfold ConstantPoolItemTag.ofByte at h
  by_cases h1 : b = 1
  · rw [if_pos h1] at h; cases h; exact h1
  rw [if_neg h1] at h
  by_cases h3 : b = 3
  · rw [if_pos h3] at h; cases h; exact h3
  rw [if_neg h3] at h
  by_cases h4 : b = 4
  · rw [if_pos h4] at h; cases h; exact h4
  rw [if_neg h4] at h
  by_cases h5 : b = 5
  · rw [if_pos h5] at h; cases h; exact h5
  rw [if_neg h5] at h
  by_cases h6 : b = 6
  · rw [if_pos h6] at h; cases h; exact h6
  rw [if_neg h6] at h
  by_cases h7 : b = 7
  · rw [if_pos h7] at h; cases h; exact h7
  rw [if_neg h7] at h
  by_cases h8 : b = 8
  · rw [if_pos h8] at h; cases h; exact h8
  rw [if_neg h8] at h
  by_cases h9 : b = 9
  · rw [if_pos h9] at h; cases h; exact h9
  rw [if_neg h9] at h
  by_cases h10 : b = 10
  · rw [if_pos h10] at h; cases h; exact h10
  rw [if_neg h10] at h
  by_cases h11 : b = 11
  · rw [if_pos h11] at h; cases h; exact h11
  rw [if_neg h11] at h
  by_cases h12 : b = 12
  · rw [if_pos h12] at h; cases h; exact h12
  rw [if_neg h12] at h
  by_cases h15 : b = 15
  · rw [if_pos h15] at h; cases h; exact h15
  rw [if_neg h15] at h
  by_cases h16 : b = 16
  · rw [if_pos h16] at h; cases h; exact h16
  rw [if_neg h16] at h
  by_cases h18 : b = 18
  · rw [if_pos h18] at h; cases h; exact h18
  rw [if_neg h18] at h
  exact absurd h (by simp)

/-- Number of payload bytes `read_constant_pool_item` consumes after the tag
byte, as a function of the tag and of the bytes that follow the tag byte
(only the Utf8 length prefix depends on them). -/
def tagPayloadSize (t : ConstantPoolItemTag) (rest : List Nat) : Nat :=
  match t with
  | .Utf8 => 2 + (256 * rest.getD 0 0 + rest.getD 1 0)
  | .Integer => 4
  | .Float => 4
  | .Long => 8
  | .Double => 8
  | .Class => 2
  | .String => 2
  | .FieldRef => 4
  | .MethodRef => 4
  | .InterfaceMethodRef => 4
  | .NameAndType => 4
  | .MethodHandle => 3
  | .MethodType => 2
  | .InvokeDynamic => 4

/-- After a recognized tag byte, `read_constant_pool_item` consumes exactly
the payload bytes prescribed for the tag: on success the remaining stream is
`rest.drop (tagPayloadSize t rest)`, and those bytes were present. -/
theorem read_constant_pool_item_payload {t : ConstantPoolItemTag}
    {rest : List Nat} {item : ConstantPoolItem} {s' : List Nat}
    (h : read_constant_pool_item (t.toByte :: rest) = .ok (item, s')) :
    s' = rest.drop (tagPayloadSize t rest) ∧ tagPayloadSize t rest ≤ rest.length := by
  unfold read_constant_pool_item at h
  simp only [read_u8] at h
  rw [ofByte_toByte t] at h
  simp only at h
  cases t
  case Utf8 =>
    simp only [tagPayloadSize]
    simp only at h
    split at h
    · simp at h
    next strlen s2 heq16 =>
      obtain ⟨h2, hl2⟩ := read_u16_drop heq16
      have hstrlen : strlen = 256 * rest.getD 0 0 + rest.getD 1 0 := by
        unfold read_u16 at heq16
        split at heq16
        · simp only [Except.ok.injEq, Prod.mk.injEq] at heq16
          obtain ⟨rfl, -⟩ := heq16
          simp_all
        · simp at heq16
      split at h
      · simp at h
      next bytes s3 heqEx =>
        obtain ⟨-, h3, hl3⟩ := readExact_drop heqEx
        split at h
        · simp only [Except.ok.injEq, Prod.mk.injEq] at h
          obtain ⟨-, rfl⟩ := h
          subst h2 h3 hstrlen
          refine ⟨?_, ?_⟩
          · rw [List.drop_drop]
          · simp only [List.length_drop] at hl3
            omega
        · cases h
  case Integer =>
    simp only [tagPayloadSize]
    simp only at h
    split at h
    · simp at h
    next v s2 heq =>
      simp only [Except.ok.injEq, Prod.mk.injEq] at h
      obtain ⟨-, rfl⟩ := h
      exact (read_i32_drop heq).imp id id
  case Float =>
    simp only [tagPayloadSize]
    simp only at h
    split at h
    · simp at h
    next v s2 heq =>
      simp only [Except.ok.injEq, Prod.mk.injEq] at h
      obtain ⟨-, rfl⟩ := h
      exact (read_f32_drop heq).imp id id
  case Long =>
    simp only [tagPayloadSize]
    simp only at h
    split at h
    · simp at h
    next v s2 heq =>
      simp only [Except.ok.injEq, Prod.mk.injEq] at h
      obtain ⟨-, rfl⟩ := h
      exact (read_i64_drop heq).imp id id
  case Double =>
    simp only [tagPayloadSize]
    simp only at h
    split at h
    · simp at h
    next v s2 heq =>
      simp only [Except.ok.injEq, Prod.mk.injEq] at h
      obtain ⟨-, rfl⟩ := h
      exact (read_f64_drop heq).imp id id
  case Class =>
    simp only [tagPayloadSize]
    simp only at h
    split at h
    · simp at h
    next v s2 heq =>
      simp only [Except.ok.injEq, Prod.mk.injEq] at h
      obtain ⟨-, rfl⟩ := h
      exact (read_u16_drop heq).imp id id
  case String =>
    simp only [tagPayloadSize]
    simp only at h
    split at h
    · simp at h
    next v s2 heq =>
      simp only [Except.ok.injEq, Prod.mk.injEq] at h
      obtain ⟨-, rfl⟩ := h
      exact (read_u16_drop heq).imp id id
  case FieldRef =>
    simp only [tagPayloadSize]
    simp only at h
    split at h
    · simp at h
    next v s2 heq =>
      split at h
      · simp at h
      next w s3 heq2 =>
        simp only [Except.ok.injEq, Prod.mk.injEq] at h
        obtain ⟨-, rfl⟩ := h
        obtain ⟨rfl, hl⟩ := read_u16_drop heq
        obtain ⟨rfl, hl2⟩ := read_u16_drop heq2
        refine ⟨?_, ?_⟩
        · rw [List.drop_drop]
        · simp only [List.length_drop] at hl2
          omega
  case MethodRef =>
    simp only [tagPayloadSize]
    simp only at h
    split at h
    · simp at h
    next v s2 heq =>
      split at h
      · simp at h
      next w s3 heq2 =>
        simp only [Except.ok.injEq, Prod.mk.injEq] at h
        obtain ⟨-, rfl⟩ := h
        obtain ⟨rfl, hl⟩ := read_u16_drop heq
        obtain ⟨rfl, hl2⟩ := read_u16_drop heq2
        refine ⟨?_, ?_⟩
        · rw [List.drop_drop]
        · simp only [List.length_drop] at hl2
          omega
  case InterfaceMethodRef =>
    simp only [tagPayloadSize]
    simp only at h
    split at h
    · simp at h
    next v s2 heq =>
      split at h
      · simp at h
      next w s3 heq2 =>
        simp only [Except.ok.injEq, Prod.mk.injEq] at h
        obtain ⟨-, rfl⟩ := h
        obtain ⟨rfl, hl⟩ := read_u16_drop heq
        obtain ⟨rfl, hl2⟩ := read_u16_drop heq2
        refine ⟨?_, ?_⟩
        · rw [List.drop_drop]
        · simp only [List.length_drop] at hl2
          omega
  case NameAndType =>
    simp only [tagPayloadSize]
    simp only at h
    split at h
    · simp at h
    next v s2 heq =>
      split at h
      · simp at h
      next w s3 heq2 =>
        simp only [Except.ok.injEq, Prod.mk.injEq] at h
        obtain ⟨-, rfl⟩ := h
        obtain ⟨rfl, hl⟩ := read_u16_drop heq
        obtain ⟨rfl, hl2⟩ := read_u16_drop heq2
        refine ⟨?_, ?_⟩
        · rw [List.drop_drop]
        · simp only [List.length_drop] at hl2
          omega
  case MethodHandle =>
    simp only [tagPayloadSize]
    simp only at h
    split at h
    · simp at h
    next v s2 heq =>
      split at h
      · simp at h
      next w s3 heq2 =>
        simp only [Except.ok.injEq, Prod.mk.injEq] at h
        obtain ⟨-, rfl⟩ := h
        obtain ⟨rfl, hl⟩ := read_u8_drop heq
        obtain ⟨rfl, hl2⟩ := read_u16_drop heq2
        refine ⟨?_, ?_⟩
        · rw [List.drop_drop]
        · simp only [List.length_drop] at hl2
          omega
  case MethodType =>
    simp only [tagPayloadSize]
    simp only at h
    split at h
    · simp at h
    next v s2 heq =>
      simp only [Except.ok.injEq, Prod.mk.injEq] at h
      obtain ⟨-, rfl⟩ := h
      exact (read_u16_drop heq).imp id id
  case InvokeDynamic =>
    simp only [tagPayloadSize]
    simp only at h
    split at h
    · simp at h
    next v s2 heq =>
      split at h
      · simp at h
      next w s3 heq2 =>
        simp only [Except.ok.injEq, Prod.mk.injEq] at h
        obtain ⟨-, rfl⟩ := h
        obtain ⟨rfl, hl⟩ := read_u16_drop heq
        obtain ⟨rfl, hl2⟩ := read_u16_drop heq2
        refine ⟨?_, ?_⟩
        · rw [List.drop_drop]
        · simp only [List.length_drop] at hl2
          omega

/-- A successful constant-pool-item read strictly shrinks the stream (it
consumes at least the tag byte); this bounds the assembler loop. -/
theorem read_constant_pool_item_length {s : List Nat} {item : ConstantPoolItem}
    {s' : List Nat} (h : read_constant_pool_item s = .ok (item, s')) :
    s'.length < s.length := by
  cases s with
  | nil => simp [read_constant_pool_item, read_u8] at h
  | cons b rest =>
    have hb : ∃ t : ConstantPoolItemTag, ConstantPoolItemTag.ofByte b = .ok t := by
      unfold read_constant_pool_item at h
      simp only [read_u8] at h
      cases htag : ConstantPoolItemTag.ofByte b with
      | error e => rw [htag] at h; simp at h
      | ok t => exact ⟨t, rfl⟩
    obtain ⟨t, htag⟩ := hb
    obtain rfl := ofByte_ok_toByte htag
    obtain ⟨rfl, hle⟩ := read_constant_pool_item_payload h
    simp only [List.length_drop, List.length_cons]
    omega

/-- The constant-pool assembly loop of `read_from` (src/lib.rs lines
137-154): while `constant_pool_index < constant_pool_count`, decode one item,
advance the u16 index by 2 for 8-byte items and by 1 otherwise (wrap-around
written out, as in a release build), and append the item.  The accumulated
items are returned in stream order together with the remaining stream. -/
def readPoolLoop (constant_pool_count : Nat) (constant_pool_index : Nat)
    (s : List Nat) : Except Error (List ConstantPoolItem × List Nat) :=
  if constant_pool_index ≥ constant_pool_count then
    .ok ([], s)
  else
    match h : read_constant_pool_item s with
    | .error e => .error e
    | .ok (item, s') =>
      match readPoolLoop constant_pool_count
          ((constant_pool_index + (if item.is_8byte then 2 else 1)) % 65536) s' with
      | .error e => .error e
      | .ok (items, rest) => .ok (item :: items, rest)
termination_by s.length
decreasing_by exact read_constant_pool_item_length h

/-- `read_from` from src/lib.rs.  The u16 subtraction
`read_u16()? - 1` on the raw pool count is modelled with release-build
wrap-around semantics (`+ 65535 % 65536`); in a debug build that subtraction
panics when the raw count is 0.  The index arithmetic of the loop is in
`readPoolLoop`.  The debug `println!` of the count is a pure side effect
with no influence on the returned value and is not modelled. -/
def read_from (s : List Nat) : Except Error ClassFile :=
  match readExact 4 s with
  | .error e => .error e
  | .ok (buf, s0) =>
    if MAGIC ≠ buf then .error (.InvalidMagic buf)
    else
      match read_u16 s0 with
      | .error e => .error e
      | .ok (minor, s1) =>
        match read_u16 s1 with
        | .error e => .error e
        | .ok (major, s2) =>
          match read_u16 s2 with
          | .error e => .error e
          | .ok (raw_count, s3) =>
            let constant_pool_count := (raw_count + 65535) % 65536
            match readPoolLoop constant_pool_count 0 s3 with
            | .error e => .error e
            | .ok (constant_pool_items, s4) =>
              match read_u16 s4 with
              | .error e => .error e
              | .ok (_access_flags, s5) =>
                match read_u16 s5 with
                | .error e => .error e
                | .ok (_this_class, s6) =>
                  match read_u16 s6 with
                  | .error e => .error e
                  | .ok (_super_class, s7) =>
                    match read_u16 s7 with
                    | .error e => .error e
                    | .ok (_interfaces_count, _s8) =>
                      .ok { version := ⟨major, minor⟩,
                            constant_pool := constant_pool_items }

theorem readPoolLoop_stop {count idx : Nat} {s : List Nat} (h : count ≤ idx) :
    readPoolLoop count idx s = .ok ([], s) := by
  rw [readPoolLoop.eq_def, if_pos h]

theorem readPoolLoop_step {count idx : Nat} {s s' : List Nat}
    {item : ConstantPoolItem} (hlt : idx < count)
    (hitem : read_constant_pool_item s = .ok (item, s')) :
    readPoolLoop count idx s =
      (readPoolLoop count
        ((idx + (if item.is_8byte then 2 else 1)) % 65536) s').map
        (fun p => (item :: p.1, p.2)) := by
  rw [readPoolLoop.eq_def, if_neg (by omega)]
  split
  next e heq => rw [hitem] at heq; cases heq
  next item2 s2 heq =>
    rw [hitem] at heq
    injection heq with heq
    injection heq with heq1 heq2
    subst heq1
    subst heq2
    cases readPoolLoop count ((idx + (if item.is_8byte then 2 else 1)) % 65536) s' with
    | error e => rfl
    | ok p => cases p; rfl

theorem utf8_item_error {h1 h0 : Nat} {payload rest : List Nat}
    (hlen : payload.length = 256 * h1 + h0)
    (hbad : validUtf8 payload = false) :
    read_constant_pool_item (1 :: h1 :: h0 :: (payload ++ rest)) =
      .error (.Utf8DecodeError payload) := by
  unfold read_constant_pool_item
  simp only [read_u8]
  rw [show ConstantPoolItemTag.ofByte 1 = .ok .Utf8 from rfl]
  simp only [read_u16]
  have hex : readExact (256 * h1 + h0) (payload ++ rest) = .ok (payload, rest) := by
    unfold readExact
    rw [if_pos (by simp [← hlen])]
    rw [List.take_left' hlen, List.drop_left' hlen]
  simp only [hex]
  rw [if_neg (by simp [hbad])]

/-- Claim C1 (counterexample): on the exact 15-byte input
`CA FE BA BE 00 0A 00 0A 00 02 03 00 00 00 2A` the decoder does NOT return
the claimed Ok value: after the pool it unconditionally reads four more u16
fields and the stream is exhausted, so it returns the I/O error. -/
theorem c1_roundtrip_counterexample :
    read_from [0xCA, 0xFE, 0xBA, 0xBE, 0x00, 0x0A, 0x00, 0x0A, 0x00, 0x02,
        0x03, 0x00, 0x00, 0x00, 0x2A] ≠
      .ok ⟨⟨10, 10⟩, [.Integer 42]⟩ ∧
    read_from [0xCA, 0xFE, 0xBA, 0xBE, 0x00, 0x0A, 0x00, 0x0A, 0x00, 0x02,
        0x03, 0x00, 0x00, 0x00, 0x2A] = .error .IoError := by
  constructor
  · intro hcontra
    have : Except.error (ε := Error) .IoError = .ok (ClassFile.mk ⟨10, 10⟩ [.Integer 42]) := by
      rw [← hcontra]
      simp [read_from, readExact, read_u16, readPoolLoop, read_constant_pool_item,
        read_u8, ConstantPoolItemTag.ofByte, read_i32, toI32, MAGIC,
        ConstantPoolItem.is_8byte]
    cases this
  · simp [read_from, readExact, read_u16, readPoolLoop, read_constant_pool_item,
      read_u8, ConstantPoolItemTag.ofByte, read_i32, toI32, MAGIC,
      ConstantPoolItem.is_8byte]

/-- Claim C1 (amended): the crafted sequence decodes to version (10,10) and
pool `[Integer 42]` whenever at least 8 further bytes (the post-pool
access_flags / this_class / super_class / interfaces_count reads) follow,
whatever their values. -/
theorem c1_roundtrip_amended (tail : List Nat) (hlen : 8 ≤ tail.length) :
    read_from ([0xCA, 0xFE, 0xBA, 0xBE, 0x00, 0x0A, 0x00, 0x0A, 0x00, 0x02,
        0x03, 0x00, 0x00, 0x00, 0x2A] ++ tail) =
      .ok ⟨⟨10, 10⟩, [.Integer 42]⟩ := by
  simp only [List.cons_append, List.nil_append]
  unfold read_from
  have hex : readExact 4 (0xCA :: 0xFE :: 0xBA :: 0xBE :: 0x00 :: 0x0A :: 0x00 :: 0x0A ::
      0x00 :: 0x02 :: 0x03 :: 0x00 :: 0x00 :: 0x00 :: 0x2A :: tail) =
      .ok (MAGIC, 0x00 :: 0x0A :: 0x00 :: 0x0A ::
        0x00 :: 0x02 :: 0x03 :: 0x00 :: 0x00 :: 0x00 :: 0x2A :: tail) := by
    unfold readExact
    rw [if_pos (by simp)]
    rfl
  simp only [hex]
  rw [if_neg (by simp)]
  simp only [read_u16]
  have hloop : readPoolLoop ((256 * 0x00 + 0x02 + 65535) % 65536) 0
      (0x03 :: 0x00 :: 0x00 :: 0x00 :: 0x2A :: tail) = .ok ([.Integer 42], tail) := by
    rw [readPoolLoop_step (by decide)
      (show read_constant_pool_item (0x03 :: 0x00 :: 0x00 :: 0x00 :: 0x2A :: tail) =
        .ok (.Integer 42, tail) from rfl)]
    rw [readPoolLoop_stop (by decide)]
    rfl
  rw [hloop]
  rcases tail with _ | ⟨a1, s1⟩
  · simp at hlen
  rcases s1 with _ | ⟨a2, s2⟩
  · simp at hlen
  rcases s2 with _ | ⟨a3, s3⟩
  · simp at hlen
  rcases s3 with _ | ⟨a4, s4⟩
  · simp at hlen
  rcases s4 with _ | ⟨a5, s5⟩
  · simp at hlen
  rcases s5 with _ | ⟨a6, s6⟩
  · simp at hlen
  rcases s6 with _ | ⟨a7, s7⟩
  · simp at hlen
  rcases s7 with _ | ⟨a8, s8⟩
  · simp at hlen
  rfl

theorem c1_roundtrip_amended_witness :
    read_from ([0xCA, 0xFE, 0xBA, 0xBE, 0x00, 0x0A, 0x00, 0x0A, 0x00, 0x02,
        0x03, 0x00, 0x00, 0x00, 0x2A] ++ [1, 2, 3, 4, 5, 6, 7, 8]) =
      .ok ⟨⟨10, 10⟩, [.Integer 42]⟩ :=
  c1_roundtrip_amended [1, 2, 3, 4, 5, 6, 7, 8] (by decide)

/-- Claim C2 (code bug): on the repository's own `test_valid_magic` input
(raw constant_pool_count = 0) the modelled release-build semantics wraps the
count to 65535 and the exhausted stream yields an I/O error rather than the
Ok(empty pool) the test asserts; in a debug build the u16 subtraction
panics outright. -/
theorem c2_count_zero_underflow :
    read_from [0xCA, 0xFE, 0xBA, 0xBE, 0, 10, 0, 10, 0, 0] = .error .IoError := by
  simp [read_from, readExact, read_u16, readPoolLoop, read_constant_pool_item,
    read_u8, MAGIC]

/-- Claim C3: the pool loop stops as soon as the logical slot counter
reaches the slot count, otherwise decodes one item and advances the (u16)
counter by 2 for an 8-byte item and by 1 otherwise; consequently the stream
declaring constant_pool_count = 3 whose first entry is a Double decodes
exactly one item. -/
theorem c3_slot_advancement :
    (∀ (count idx : Nat) (s : List Nat), count ≤ idx →
      readPoolLoop count idx s = .ok ([], s)) ∧
    (∀ (count idx : Nat) (s s' : List Nat) (item : ConstantPoolItem),
      idx < count → read_constant_pool_item s = .ok (item, s') →
      readPoolLoop count idx s =
        (readPoolLoop count ((idx + (if item.is_8byte then 2 else 1)) % 65536) s').map
          (fun p => (item :: p.1, p.2))) ∧
    read_from ([0xCA, 0xFE, 0xBA, 0xBE, 0x00, 0x0A, 0x00, 0x0A, 0x00, 0x03,
        0x06, 0x3F, 0xF0, 0x00, 0x00, 0x00, 0x00, 0x00, 0x00] ++ List.replicate 8 0) =
      .ok ⟨⟨10, 10⟩, [.Double 0x3FF0000000000000]⟩ := by
  refine ⟨fun count idx s h => readPoolLoop_stop h,
    fun count idx s s' item h1 h2 => readPoolLoop_step h1 h2, ?_⟩
  simp [read_from, readExact, read_u16, readPoolLoop, read_constant_pool_item,
    read_u8, ConstantPoolItemTag.ofByte, read_f64, MAGIC,
    ConstantPoolItem.is_8byte, List.replicate]

theorem c3_slot_advancement_witness :
    readPoolLoop 1 1 [7, 7] = .ok ([], [7, 7]) ∧
    readPoolLoop 1 0 [3, 0, 0, 0, 42] = .ok ([.Integer 42], []) := by
  constructor
  · exact c3_slot_advancement.1 1 1 [7, 7] (by decide)
  · rw [c3_slot_advancement.2.1 1 0 [3, 0, 0, 0, 42] [] (.Integer 42) (by decide) rfl]
    rw [c3_slot_advancement.1 1
      ((0 + (if (ConstantPoolItem.Integer 42).is_8byte then 2 else 1)) % 65536) []
      (by decide)]
    rfl

/-- Claim C4: any stream of length at least 4 whose first 4 bytes differ
from `CA FE BA BE` is rejected with the invalid-magic error carrying the 4
observed bytes, whatever follows. -/
theorem c4_invalid_magic (s : List Nat) (hlen : 4 ≤ s.length)
    (hmagic : s.take 4 ≠ MAGIC) :
    read_from s = .error (.InvalidMagic (s.take 4)) := by
  unfold read_from
  have hex : readExact 4 s = .ok (s.take 4, s.drop 4) := by
    unfold readExact; rw [if_pos hlen]
  simp only [hex]
  rw [if_pos (Ne.symm hmagic)]

theorem c4_invalid_magic_witness :
    read_from [0, 0, 0, 0] = .error (.InvalidMagic [0, 0, 0, 0]) :=
  c4_invalid_magic [0, 0, 0, 0] (by decide) (by decide)

/-- Claim C5: any tag byte outside the fourteen recognized discriminants
makes `read_constant_pool_item` fail with the invalid-tag error carrying
that byte, regardless of the following bytes. -/
theorem c5_invalid_tag (t : Nat)
    (hnot : t ∉ [1, 3, 4, 5, 6, 7, 8, 9, 10, 11, 12, 15, 16, 18]) (rest : List Nat) :
    read_constant_pool_item (t :: rest) = .error (.InvalidConstantPoolItemTag t) := by
  simp only [List.mem_cons, List.not_mem_nil, or_false, not_or] at hnot
  obtain ⟨n1, n3, n4, n5, n6, n7, n8, n9, n10, n11, n12, n15, n16, n18⟩ := hnot
  unfold read_constant_pool_item
  simp only [read_u8]
  rw [show ConstantPoolItemTag.ofByte t = .error (.InvalidConstantPoolItemTag t) from by
    unfold ConstantPoolItemTag.ofByte
    rw [if_neg n1, if_neg n3, if_neg n4, if_neg n5, if_neg n6, if_neg n7, if_neg n8,
      if_neg n9, if_neg n10, if_neg n11, if_neg n12, if_neg n15, if_neg n16, if_neg n18]]

theorem c5_invalid_tag_witness :
    read_constant_pool_item [19, 3, 0, 0, 0, 42] =
      .error (.InvalidConstantPoolItemTag 19) :=
  c5_invalid_tag 19 (by decide) [3, 0, 0, 0, 42]

/-- Claim C6: a Utf8 entry whose length-prefixed payload is not valid UTF-8
fails with the UTF-8 decode error carrying the payload, both at the item
level and through `read_from`, which then yields no ClassFile at all. -/
theorem c6_utf8_decode_error :
    (∀ (h1 h0 : Nat) (payload rest : List Nat),
      payload.length = 256 * h1 + h0 → validUtf8 payload = false →
      read_constant_pool_item (1 :: h1 :: h0 :: (payload ++ rest)) =
        .error (.Utf8DecodeError payload)) ∧
    (∀ (b4 b5 b6 b7 c1 c0 h1 h0 : Nat) (payload rest : List Nat),
      1 ≤ (256 * c1 + c0 + 65535) % 65536 →
      payload.length = 256 * h1 + h0 → validUtf8 payload = false →
      read_from (0xCA :: 0xFE :: 0xBA :: 0xBE :: b4 :: b5 :: b6 :: b7 :: c1 :: c0 ::
          1 :: h1 :: h0 :: (payload ++ rest)) =
        .error (.Utf8DecodeError payload)) := by
  refine ⟨fun h1 h0 payload rest hlen hbad => utf8_item_error hlen hbad, ?_⟩
  intro b4 b5 b6 b7 c1 c0 h1 h0 payload rest hcnt hlen hbad
  unfold read_from
  have hex : readExact 4 (0xCA :: 0xFE :: 0xBA :: 0xBE :: b4 :: b5 :: b6 :: b7 :: c1 :: c0 ::
      1 :: h1 :: h0 :: (payload ++ rest)) = .ok (MAGIC, b4 :: b5 :: b6 :: b7 :: c1 :: c0 ::
      1 :: h1 :: h0 :: (payload ++ rest)) := by
    unfold readExact
    rw [if_pos (by simp)]
    rfl
  simp only [hex]
  rw [if_neg (by simp)]
  simp only [read_u16]
  rw [readPoolLoop.eq_def, if_neg (by omega)]
  rw [show read_constant_pool_item (1 :: h1 :: h0 :: (payload ++ rest)) =
    .error (.Utf8DecodeError payload) from utf8_item_error hlen hbad]

theorem c6_utf8_decode_error_witness :
    read_constant_pool_item [1, 0, 1, 0x80, 9, 9] = .error (.Utf8DecodeError [0x80]) ∧
    read_from [0xCA, 0xFE, 0xBA, 0xBE, 0, 0, 0, 0, 0, 2, 1, 0, 1, 0x80] =
      .error (.Utf8DecodeError [0x80]) := by
  constructor
  · exact c6_utf8_decode_error.1 0 1 [0x80] [9, 9] (by decide) (by decide)
  · exact c6_utf8_decode_error.2 0 0 0 0 0 2 0 1 [0x80] [] (by decide) (by decide) (by decide)

/-- Claim C7: the two u16 version fields are read minor-first at offsets 4
and 6; any successful parse surfaces major = u16 at offset 6 and
minor = u16 at offset 4. -/
theorem c7_version_order (b4 b5 b6 b7 : Nat) (rest : List Nat) (cf : ClassFile)
    (h : read_from (0xCA :: 0xFE :: 0xBA :: 0xBE :: b4 :: b5 :: b6 :: b7 :: rest) = .ok cf) :
    cf.version.major = 256 * b6 + b7 ∧ cf.version.minor = 256 * b4 + b5 := by
  unfold read_from at h
  have hex : readExact 4 (0xCA :: 0xFE :: 0xBA :: 0xBE :: b4 :: b5 :: b6 :: b7 :: rest) =
      .ok (MAGIC, b4 :: b5 :: b6 :: b7 :: rest) := by
    unfold readExact
    rw [if_pos (by simp)]
    rfl
  rw [hex] at h
  simp only at h
  rw [if_neg (by simp)] at h
  simp only [read_u16] at h
  split at h
  · cases h
  next raw s3 hraw =>
    split at h
    · cases h
    next items s4 hloop =>
      split at h
      · cases h
      next af s5 h5 =>
        split at h
        · cases h
        next tc s6 h6 =>
          split at h
          · cases h
          next sc s7 h7 =>
            split at h
            · cases h
            next ic s8 h8 =>
              cases h
              exact ⟨rfl, rfl⟩

theorem c7_version_order_witness :
    (ClassFile.mk ⟨10, 10⟩ []).version.major = 256 * 0 + 10 ∧
    (ClassFile.mk ⟨10, 10⟩ []).version.minor = 256 * 0 + 10 :=
  c7_version_order 0 10 0 10 [0, 1, 0, 0, 0, 0, 0, 0, 0, 0]
    (ClassFile.mk ⟨10, 10⟩ [])
    (by simp [read_from, readExact, read_u16, readPoolLoop, read_u8, MAGIC])

/-- Claim C8: the byte/tag conversion is a closed reversible mapping:
discriminant-to-tag inverts tag-to-discriminant on all fourteen variants,
and a successful conversion forces the byte to be that tag's discriminant
(so no byte outside the fourteen converts). -/
theorem c8_tag_reversible :
    (∀ t : ConstantPoolItemTag, ConstantPoolItemTag.ofByte t.toByte = .ok t) ∧
    (∀ (b : Nat) (t : ConstantPoolItemTag),
      ConstantPoolItemTag.ofByte b = .ok t → b = t.toByte) :=
  ⟨ofByte_toByte, fun _ _ h => ofByte_ok_toByte h⟩

theorem c8_tag_reversible_witness :
    ConstantPoolItemTag.ofByte 18 = .ok .InvokeDynamic ∧
    (18 : Nat) = ConstantPoolItemTag.toByte .InvokeDynamic :=
  ⟨c8_tag_reversible.1 .InvokeDynamic,
   c8_tag_reversible.2 18 .InvokeDynamic rfl⟩

/-- Claim C9: after a recognized tag byte, decoding consumes exactly the
payload bytes prescribed for that tag (Utf8: 2 plus the length prefix;
Integer/Float: 4; Long/Double: 8; Class/String/MethodType: 2;
FieldRef/MethodRef/InterfaceMethodRef/NameAndType/InvokeDynamic: 4;
MethodHandle: 3), also for the tags decoded as `Unsupported`. -/
theorem c9_payload_consumption (t : ConstantPoolItemTag) (rest : List Nat)
    (item : ConstantPoolItem) (s' : List Nat)
    (h : read_constant_pool_item (t.toByte :: rest) = .ok (item, s')) :
    s' = rest.drop (tagPayloadSize t rest) ∧ tagPayloadSize t rest ≤ rest.length :=
  read_constant_pool_item_payload h

theorem c9_payload_consumption_witness :
    ([] : List Nat) = [1, 0, 4].drop (tagPayloadSize .MethodHandle [1, 0, 4]) ∧
    tagPayloadSize .MethodHandle [1, 0, 4] ≤ [1, 0, 4].length :=
  c9_payload_consumption .MethodHandle [1, 0, 4] .Unsupported [] rfl

/-- Claim C10: after the pool loop, `read_from` performs exactly four more
u16 reads (access flags, this-class, super-class, interfaces count): with
fewer than 8 bytes left it fails with the I/O error, and with 8 or more the
values read never appear in the returned ClassFile. -/
theorem c10_trailing_reads (b4 b5 b6 b7 c1 c0 : Nat) (body : List Nat)
    (items : List ConstantPoolItem) (s' : List Nat)
    (hloop : readPoolLoop ((256 * c1 + c0 + 65535) % 65536) 0 body = .ok (items, s')) :
    (s'.length < 8 →
      read_from (0xCA :: 0xFE :: 0xBA :: 0xBE :: b4 :: b5 :: b6 :: b7 :: c1 :: c0 :: body) =
        .error .IoError) ∧
    (8 ≤ s'.length →
      read_from (0xCA :: 0xFE :: 0xBA :: 0xBE :: b4 :: b5 :: b6 :: b7 :: c1 :: c0 :: body) =
        .ok ⟨⟨256 * b6 + b7, 256 * b4 + b5⟩, items⟩) := by
  have hbody : read_from (0xCA :: 0xFE :: 0xBA :: 0xBE :: b4 :: b5 :: b6 :: b7 :: c1 :: c0 :: body) =
      match read_u16 s' with
      | .error e => .error e
      | .ok (_, s5) =>
        match read_u16 s5 with
        | .error e => .error e
        | .ok (_, s6) =>
          match read_u16 s6 with
          | .error e => .error e
          | .ok (_, s7) =>
            match read_u16 s7 with
            | .error e => .error e
            | .ok (_, _) =>
              .ok ⟨⟨256 * b6 + b7, 256 * b4 + b5⟩, items⟩ := by
    unfold read_from
    have hex : readExact 4 (0xCA :: 0xFE :: 0xBA :: 0xBE :: b4 :: b5 :: b6 :: b7 :: c1 :: c0 :: body) =
        .ok (MAGIC, b4 :: b5 :: b6 :: b7 :: c1 :: c0 :: body) := by
      unfold readExact
      rw [if_pos (by simp)]
      rfl
    simp only [hex]
    rw [if_neg (by simp)]
    simp only [read_u16]
    rw [hloop]
  rw [hbody]
  constructor
  · intro hshort
    rcases s' with _ | ⟨a1, s1⟩
    · rfl
    rcases s1 with _ | ⟨a2, s2⟩
    · rfl
    rcases s2 with _ | ⟨a3, s3⟩
    · rfl
    rcases s3 with _ | ⟨a4, s4⟩
    · rfl
    rcases s4 with _ | ⟨a5, s5⟩
    · rfl
    rcases s5 with _ | ⟨a6, s6⟩
    · rfl
    rcases s6 with _ | ⟨a7, s7⟩
    · rfl
    rcases s7 with _ | ⟨a8, s8⟩
    · rfl
    exfalso
    simp only [List.length_cons] at hshort
    omega
  · intro hlong
    rcases s' with _ | ⟨a1, s1⟩
    · simp at hlong
    rcases s1 with _ | ⟨a2, s2⟩
    · simp at hlong
    rcases s2 with _ | ⟨a3, s3⟩
    · simp at hlong
    rcases s3 with _ | ⟨a4, s4⟩
    · simp at hlong
    rcases s4 with _ | ⟨a5, s5⟩
    · simp at hlong
    rcases s5 with _ | ⟨a6, s6⟩
    · simp at hlong
    rcases s6 with _ | ⟨a7, s7⟩
    · simp at hlong
    rcases s7 with _ | ⟨a8, s8⟩
    · simp at hlong
    rfl

theorem c10_trailing_reads_witness :
    read_from [0xCA, 0xFE, 0xBA, 0xBE, 0, 10, 0, 10, 0, 1] = .error .IoError ∧
    read_from [0xCA, 0xFE, 0xBA, 0xBE, 0, 10, 0, 10, 0, 1,
        0, 0, 0, 0, 0, 0, 0, 0] = .ok ⟨⟨10, 10⟩, []⟩ := by
  constructor
  · exact (c10_trailing_reads 0 10 0 10 0 1 [] [] []
      (readPoolLoop_stop (by decide))).1 (by decide)
  · exact (c10_trailing_reads 0 10 0 10 0 1 [0, 0, 0, 0, 0, 0, 0, 0] []
      [0, 0, 0, 0, 0, 0, 0, 0] (readPoolLoop_stop (by decide))).2 (by decide)

end Classfile
